import Mathlib

/-!
Verification of the pulse-sequence compiler and sweep controller of
`Other/experiments/t1_experiment.py` (three-pulse all-optical T1 experiment,
PulseBlaster + SR830).

The Python module is embedded shallowly:

* `_program_three_pulse_sequence` becomes `programThreePulseSequence`.
  The Python function both validates the timing spec and programs the
  PulseBlaster via `pb_start_programming` / `pb_inst_pbonly` /
  `pb_stop_programming`; the embedding therefore returns the list of hardware
  calls it performs (its trace) together with either the list of emitted
  instructions or the raised `ValueError` message.
* `run` becomes `run`: the hardware and thread environment (PulseBlaster init,
  SR830 init and its reported time constant, interruption requests, instrument
  reads, and failures inside the `finally` block) is abstracted as an
  `Oracles` record, and `run` returns the full hardware-call trace together
  with either the returned result dictionary or the propagated exception
  message.

All times are rationals: the Python code computes with floats, but every
quantity of interest here is produced by finitely many exact `+ - * / max`
operations, which the rationals model exactly.
-/

deriving instance DecidableEq for Except

/-- Embeds the PulseBlaster opcodes used by the source (`CONTINUE`, `BRANCH`). -/
inductive PBOp where
  | CONTINUE : PBOp
  | BRANCH : PBOp
deriving DecidableEq

/-- One `pb_inst_pbonly(flags, op, inst_data, length)` instruction. -/
structure PulseStep where
  flags : Nat
  op : PBOp
  instData : Nat
  length : Rat
deriving DecidableEq

/-- Hardware calls made by the experiment code, in program order. -/
inductive Ev where
  | pbInitSimple : Ev
  | sr830Init : Ev
  | pbStartProg : Ev
  | pbInst (s : PulseStep) : Ev
  | pbStopProg : Ev
  | pbStop : Ev
  | pbReset : Ev
  | pbStart : Ev
  | pbClose : Ev
  | sleep (t : Rat) : Ev
  | srRead : Ev
  | liClose : Ev
  | rmClose : Ev
deriving DecidableEq

/-- Channel bit `CH_REF = (1 << 0)`: TTL to the lock-in amplifier reference
input. -/
def CH_REF : Nat := 1

/-- Channel bit `CH_LASER = (1 << 1)`: TTL to the laser. -/
def CH_LASER : Nat := 2

/-- Embeds `_program_three_pulse_sequence(tau_us, tref_ms, init_us, second_us,
read_us)` of `t1_experiment.py`.  Returns the trace of PulseBlaster calls the
function performs and either the emitted instruction list or the message of
the `ValueError` it raises.  Both guards run before any hardware call, so a
rejected spec produces an empty trace. -/
def programThreePulseSequence (tau_us tref_ms init_us second_us read_us : Rat) :
    List Ev × Except String (List PulseStep) :=
  let half_ns := tref_ms * 1000000 / 2
  let init_ns := init_us * 1000
  let second_ns := second_us * 1000
  let read_ns := read_us * 1000
  let tau_ns := tau_us * 1000
  if init_ns > half_ns then
    ([], Except.error "INIT longer than first half")
  else if second_ns + tau_ns + read_ns > half_ns then
    ([], Except.error "SECOND + tau + READ must fit in second half")
  else
    let high_base_ns := half_ns - init_ns
    let low_after_read_ns := half_ns - (second_ns + tau_ns + read_ns)
    let steps : List PulseStep :=
      [⟨CH_REF ||| CH_LASER, PBOp.CONTINUE, 0, init_ns⟩,
       ⟨CH_REF, PBOp.CONTINUE, 0, high_base_ns⟩,
       ⟨CH_LASER, PBOp.CONTINUE, 0, second_ns⟩] ++
      (if tau_ns > 0 then [⟨0, PBOp.CONTINUE, 0, tau_ns⟩] else []) ++
      [⟨CH_LASER, PBOp.CONTINUE, 0, read_ns⟩,
       ⟨0, PBOp.BRANCH, 0, max 1 low_after_read_ns⟩]
    (Ev.pbStartProg :: (steps.map Ev.pbInst ++ [Ev.pbStopProg]), Except.ok steps)

/-- Sum of the durations of a list of instructions (nanoseconds). -/
def durSum (p : List PulseStep) : Rat := (p.map PulseStep.length).sum

/-- Embeds `wait_s = max(1, 10 * tau_LI_s)` from `run` in `t1_experiment.py`:
settle wait in seconds, floor 1 s, factor 10 times the lock-in time
constant. -/
def settleWait (tau_LI_s : Rat) : Rat := max 1 (10 * tau_LI_s)

/-- Holds exactly for the sequencer-programming calls
(`pb_start_programming`, `pb_inst_pbonly`, `pb_stop_programming`). -/
def isProgEv : Ev → Bool
  | Ev.pbStartProg => true
  | Ev.pbInst _ => true
  | Ev.pbStopProg => true
  | _ => false

/-- The dictionary returned by `run`: full τ list converted to seconds, and
the accumulated lock-in readings. -/
structure RunResult where
  tau_s : List Rat
  R_V : List Rat
deriving DecidableEq

/-- Environment of one `run` call: whether the two init calls succeed, the
time constant the SR830 reports, the per-check interruption flag, the
per-read success flag and value, and whether each call in the `finally`
block succeeds. -/
structure Oracles where
  pbInitOk : Bool
  srInitOk : Bool
  tau_LI : Rat
  cancelReq : Nat → Bool
  readOk : Nat → Bool
  readVal : Nat → Rat
  finPbStopOk : Bool
  finPbResetOk : Bool
  finLiCloseOk : Bool

/-- The `for i, tau in enumerate(taus_us)` body of `run`.  `c` counts
interruption checks, `r` counts instrument reads, `acc` is `Rvals`.  Returns
the trace of the remaining iterations, the final counters, the final `Rvals`,
and `some msg` when an exception aborted the loop (compile `ValueError` or a
failed read). -/
def sweepPoints (cancel readOk : Nat → Bool) (readVal : Nat → Rat)
    (wait_s tref_ms init_us second_us read_us : Rat) :
    List Rat → Nat → Nat → List Rat → List Ev × Nat × Nat × List Rat × Option String
  | [], c, r, acc => ([], c, r, acc, none)
  | tau :: rest, c, r, acc =>
    if cancel c then
      ([], c + 1, r, acc, none)
    else
      match programThreePulseSequence tau tref_ms init_us second_us read_us with
      | (ctr, Except.error e) => ([Ev.pbStop, Ev.pbReset] ++ ctr, c + 1, r, acc, some e)
      | (ctr, Except.ok _) =>
        let tr2 := [Ev.pbStop, Ev.pbReset] ++ ctr ++ [Ev.pbStart, Ev.sleep wait_s, Ev.srRead]
        if readOk r then
          match sweepPoints cancel readOk readVal wait_s tref_ms init_us second_us read_us
              rest (c + 1) (r + 1) (acc ++ [readVal r]) with
          | (tr3, c3, r3, acc3, out) => (tr2 ++ tr3, c3, r3, acc3, out)
        else
          (tr2, c + 1, r + 1, acc, some "read failed")

/-- The `while loop_counter < loops` loop of `run`: repeats `sweepPoints`
(an interruption only breaks the inner `for`, so the `while` continues), and
propagates an exception immediately. -/
def sweepLoops (cancel readOk : Nat → Bool) (readVal : Nat → Rat)
    (wait_s tref_ms init_us second_us read_us : Rat) (taus : List Rat) :
    Nat → Nat → Nat → List Rat → List Ev × List Rat × Option String
  | 0, _, _, acc => ([], acc, none)
  | Nat.succ n, c, r, acc =>
    match sweepPoints cancel readOk readVal wait_s tref_ms init_us second_us read_us
        taus c r acc with
    | (tr, _, _, acc1, some e) => (tr, acc1, some e)
    | (tr, c1, r1, acc1, none) =>
      match sweepLoops cancel readOk readVal wait_s tref_ms init_us second_us read_us
          taus n c1 r1 acc1 with
      | (tr2, acc2, out2) => (tr ++ tr2, acc2, out2)

/-- The `finally` block of `run`:
`try: pb_stop(); pb_reset(); pb_close() except: pass` followed by
`try: li.close(); rm.close() except: pass`.  A failing call aborts its own
`try` group (skipping the rest of that group) but nothing escapes. -/
def finalizeTrace (stopOk resetOk liCloseOk : Bool) : List Ev :=
  (Ev.pbStop :: (if stopOk then Ev.pbReset :: (if resetOk then [Ev.pbClose] else []) else [])) ++
  (Ev.liClose :: (if liCloseOk then [Ev.rmClose] else []))

/-- Embeds `run(ax, emit, tref_ms, init_us, second_us, read_us, ..., loops)` of
`t1_experiment.py` (plotting and `emit` GUI calls carry no hardware effect and
are dropped; the τ grid is passed as an explicit list).  `pb_init_simple()` and
`init_sr830()` run before the `try`, so a failure there skips the `finally`
block entirely.  Returns the full hardware trace and either the returned
dictionary or the propagated exception message. -/
def run (o : Oracles) (taus_us : List Rat) (tref_ms init_us second_us read_us : Rat)
    (loops : Nat) : List Ev × Except String RunResult :=
  if o.pbInitOk then
    if o.srInitOk then
      match sweepLoops o.cancelReq o.readOk o.readVal (settleWait o.tau_LI)
          tref_ms init_us second_us read_us taus_us loops 0 0 [] with
      | (tr, _, some e) =>
        (Ev.pbInitSimple :: Ev.sr830Init ::
           (tr ++ finalizeTrace o.finPbStopOk o.finPbResetOk o.finLiCloseOk),
         Except.error e)
      | (tr, acc, none) =>
        (Ev.pbInitSimple :: Ev.sr830Init ::
           (tr ++ finalizeTrace o.finPbStopOk o.finPbResetOk o.finLiCloseOk),
         Except.ok ⟨taus_us.map (fun x => x / 1000000), acc⟩)
    else ([Ev.pbInitSimple, Ev.sr830Init], Except.error "sr830 init failed")
  else ([Ev.pbInitSimple], Except.error "pb init failed")

/-- Number of sweep points the `for` loop processes out of `n` remaining when
the interruption checks start at index `c`: it stops at the first requested
check. -/
def stopCount (cancel : Nat → Bool) : Nat → Nat → Nat
  | _, 0 => 0
  | c, Nat.succ n => if cancel c then 0 else stopCount cancel (c + 1) n + 1

/-- All-success environment: both inits succeed, the SR830 reports a 10 ms
time constant, no interruption, every read succeeds and returns its index,
the `finally` block succeeds. -/
def okOracle : Oracles :=
  ⟨true, true, 1 / 100, fun _ => false, fun _ => true, fun n => (n : Rat), true, true, true⟩

/-- The instruction list `programThreePulseSequence` emits when both guards
pass (named so lemmas can refer to it). -/
def threePulseSteps (tau_us tref_ms init_us second_us read_us : Rat) : List PulseStep :=
  [⟨CH_REF ||| CH_LASER, PBOp.CONTINUE, 0, init_us * 1000⟩,
   ⟨CH_REF, PBOp.CONTINUE, 0, tref_ms * 1000000 / 2 - init_us * 1000⟩,
   ⟨CH_LASER, PBOp.CONTINUE, 0, second_us * 1000⟩] ++
  (if tau_us * 1000 > 0 then [⟨0, PBOp.CONTINUE, 0, tau_us * 1000⟩] else []) ++
  [⟨CH_LASER, PBOp.CONTINUE, 0, read_us * 1000⟩,
   ⟨0, PBOp.BRANCH, 0,
     max 1 (tref_ms * 1000000 / 2 - (second_us * 1000 + tau_us * 1000 + read_us * 1000))⟩]

lemma compile_ok_of_fits (tau_us tref_ms init_us second_us read_us : Rat)
    (hinit : init_us * 1000 ≤ tref_ms * 1000000 / 2)
    (hfit : second_us * 1000 + tau_us * 1000 + read_us * 1000 ≤ tref_ms * 1000000 / 2) :
    programThreePulseSequence tau_us tref_ms init_us second_us read_us =
      (Ev.pbStartProg ::
         ((threePulseSteps tau_us tref_ms init_us second_us read_us).map Ev.pbInst ++
           [Ev.pbStopProg]),
       Except.ok (threePulseSteps tau_us tref_ms init_us second_us read_us)) := by
  simp only [programThreePulseSequence, threePulseSteps]
  rw [if_neg (not_lt.mpr hinit), if_neg (not_lt.mpr hfit)]

lemma compile_error_of_violation (tau_us tref_ms init_us second_us read_us : Rat)
    (hinit : init_us * 1000 ≤ tref_ms * 1000000 / 2)
    (hviol : tref_ms * 1000000 / 2 < second_us * 1000 + tau_us * 1000 + read_us * 1000) :
    programThreePulseSequence tau_us tref_ms init_us second_us read_us =
      ([], Except.error "SECOND + tau + READ must fit in second half") := by
  simp only [programThreePulseSequence]
  rw [if_neg (not_lt.mpr hinit), if_pos hviol]

lemma mem_prog_trace {steps : List PulseStep} {e : Ev}
    (he : e ∈ Ev.pbStartProg :: (steps.map Ev.pbInst ++ [Ev.pbStopProg])) :
    isProgEv e = true := by
  rcases List.mem_cons.mp he with rfl | h
  · rfl
  rcases List.mem_append.mp h with h | h
  · obtain ⟨s, _, rfl⟩ := List.mem_map.mp h
    rfl
  · rw [List.mem_singleton.mp h]
    rfl

lemma compile_trace_progEv (tau_us tref_ms init_us second_us read_us : Rat) :
    ∀ e ∈ (programThreePulseSequence tau_us tref_ms init_us second_us read_us).1,
      isProgEv e = true := by
  intro e he
  simp only [programThreePulseSequence] at he
  split_ifs at he
  · simp at he
  · simp at he
  · exact mem_prog_trace he
  · exact mem_prog_trace he

lemma finalize_mem_pbStop (b1 b2 b3 : Bool) : Ev.pbStop ∈ finalizeTrace b1 b2 b3 := by
  simp [finalizeTrace]

lemma finalize_mem_liClose (b1 b2 b3 : Bool) : Ev.liClose ∈ finalizeTrace b1 b2 b3 := by
  simp [finalizeTrace]

lemma finalize_only_teardown (b1 b2 b3 : Bool) :
    ∀ e ∈ finalizeTrace b1 b2 b3,
      isProgEv e = false ∧ e ≠ Ev.pbStart ∧ ∀ t, e ≠ Ev.sleep t := by
  cases b1 <;> cases b2 <;> cases b3 <;>
    (intro e he; fin_cases he <;> simp [isProgEv])

lemma stopCount_of_false (cancel : Nat → Bool) (h : ∀ n, cancel n = false) :
    ∀ (n c : Nat), stopCount cancel c n = n := by
  intro n
  induction n with
  | zero => intro c; rfl
  | succ n ih => intro c; rw [stopCount, h c]; simp [ih (c + 1)]

lemma stopCount_threshold (K : Nat) (cancel : Nat → Bool)
    (h : ∀ n, cancel n = decide (K ≤ n)) :
    ∀ (n c : Nat), stopCount cancel c n = min (K - c) n := by
  intro n
  induction n with
  | zero => intro c; simp [stopCount]
  | succ n ih =>
    intro c
    rw [stopCount, h c]
    by_cases hK : K ≤ c
    · simp [hK]
    · simp [hK, ih (c + 1)]
      omega

lemma mem_point_trace {ctr : List Ev} {w t : Rat}
    (hctr : ∀ e ∈ ctr, isProgEv e = true)
    (h : Ev.sleep t ∈ [Ev.pbStop, Ev.pbReset] ++ ctr ++ [Ev.pbStart, Ev.sleep w, Ev.srRead]) :
    t = w := by
  rcases List.mem_append.mp h with h | h
  · rcases List.mem_append.mp h with h | h
    · simp at h
    · have := hctr _ h
      simp [isProgEv] at this
  · simp only [List.mem_cons, List.not_mem_nil, or_false] at h
    rcases h with h | h | h
    · exact absurd h (by simp)
    · exact (Ev.sleep.injEq t w).mp h
    · exact absurd h (by simp)

lemma mem_stop_reset_ctr {ctr : List Ev} {t : Rat}
    (hctr : ∀ e ∈ ctr, isProgEv e = true)
    (h : Ev.sleep t ∈ [Ev.pbStop, Ev.pbReset] ++ ctr) : False := by
  rcases List.mem_append.mp h with h | h
  · simp at h
  · have := hctr _ h
    simp [isProgEv] at this

lemma sweepPoints_sleep_eq (cancel readOk : Nat → Bool) (readVal : Nat → Rat)
    (w tref_ms init_us second_us read_us : Rat) :
    ∀ (taus : List Rat) (c r : Nat) (acc : List Rat) (t : Rat),
      Ev.sleep t ∈
        (sweepPoints cancel readOk readVal w tref_ms init_us second_us read_us
          taus c r acc).1 →
      t = w := by
  intro taus
  induction taus with
  | nil => intro c r acc t h; simp [sweepPoints] at h
  | cons tau rest ih =>
    intro c r acc t h
    rw [sweepPoints] at h
    by_cases hc : cancel c = true
    · rw [if_pos hc] at h
      simp at h
    · rw [if_neg hc] at h
      rcases hp : programThreePulseSequence tau tref_ms init_us second_us read_us
        with ⟨ctr, res⟩
      rw [hp] at h
      have hctr : ∀ e ∈ ctr, isProgEv e = true := by
        intro e he
        exact compile_trace_progEv tau tref_ms init_us second_us read_us e
          (by rw [hp]; exact he)
      cases res with
      | error e =>
        dsimp only at h
        exact absurd h (fun hmem => mem_stop_reset_ctr hctr hmem)
      | ok steps =>
        dsimp only at h
        by_cases hr : readOk r = true
        · rw [if_pos hr] at h
          rcases hrec : sweepPoints cancel readOk readVal w tref_ms init_us second_us
              read_us rest (c + 1) (r + 1) (acc ++ [readVal r])
            with ⟨tr3, c3, r3, acc3, out⟩
          rw [hrec] at h
          dsimp only at h
          rcases List.mem_append.mp h with h | h
          · exact mem_point_trace hctr h
          · exact ih (c + 1) (r + 1) (acc ++ [readVal r]) t (by rw [hrec]; exact h)
        · rw [if_neg hr] at h
          dsimp only at h
          exact mem_point_trace hctr h

lemma sweepLoops_sleep_eq (cancel readOk : Nat → Bool) (readVal : Nat → Rat)
    (w tref_ms init_us second_us read_us : Rat) (taus : List Rat) :
    ∀ (n c r : Nat) (acc : List Rat) (t : Rat),
      Ev.sleep t ∈
        (sweepLoops cancel readOk readVal w tref_ms init_us second_us read_us
          taus n c r acc).1 →
      t = w := by
  intro n
  induction n with
  | zero => intro c r acc t h; simp [sweepLoops] at h
  | succ n ih =>
    intro c r acc t h
    rw [sweepLoops] at h
    rcases hsp : sweepPoints cancel readOk readVal w tref_ms init_us second_us read_us
        taus c r acc with ⟨tr, c1, r1, acc1, out⟩
    rw [hsp] at h
    cases out with
    | some e =>
      dsimp only at h
      exact sweepPoints_sleep_eq cancel readOk readVal w tref_ms init_us second_us
        read_us taus c r acc t (by rw [hsp]; exact h)
    | none =>
      dsimp only at h
      rcases hsl : sweepLoops cancel readOk readVal w tref_ms init_us second_us read_us
          taus n c1 r1 acc1 with ⟨tr2, acc2, out2⟩
      rw [hsl] at h
      dsimp only at h
      rcases List.mem_append.mp h with h | h
      · exact sweepPoints_sleep_eq cancel readOk readVal w tref_ms init_us second_us
          read_us taus c r acc t (by rw [hsp]; exact h)
      · exact ih c1 r1 acc1 t (by rw [hsl]; exact h)

lemma sweepPoints_spec (cancel readOk : Nat → Bool) (readVal : Nat → Rat)
    (w tref_ms init_us second_us read_us : Rat)
    (hread : ∀ n, readOk n = true) :
    ∀ (taus : List Rat),
      (∀ tau ∈ taus,
        init_us * 1000 ≤ tref_ms * 1000000 / 2 ∧
        second_us * 1000 + tau * 1000 + read_us * 1000 ≤ tref_ms * 1000000 / 2) →
      ∀ (c r : Nat) (acc : List Rat),
        (sweepPoints cancel readOk readVal w tref_ms init_us second_us read_us
            taus c r acc).2.2.2.1 =
          acc ++ (List.range (stopCount cancel c taus.length)).map
            (fun j => readVal (r + j)) ∧
        (sweepPoints cancel readOk readVal w tref_ms init_us second_us read_us
            taus c r acc).2.2.2.2 = none := by
  intro taus
  induction taus with
  | nil =>
    intro _ c r acc
    constructor <;> simp [sweepPoints, stopCount]
  | cons tau rest ih =>
    intro hok c r acc
    by_cases hc : cancel c = true
    · rw [sweepPoints, if_pos hc, List.length_cons, stopCount, if_pos hc]
      constructor <;> simp
    · obtain ⟨h1, h2⟩ := hok tau (List.mem_cons_self tau rest)
      have hcomp := compile_ok_of_fits tau tref_ms init_us second_us read_us h1 h2
      obtain ⟨hacc, hout⟩ :=
        ih (fun x hx => hok x (List.mem_cons_of_mem tau hx)) (c + 1) (r + 1)
          (acc ++ [readVal r])
      rcases hrec : sweepPoints cancel readOk readVal w tref_ms init_us second_us
          read_us rest (c + 1) (r + 1) (acc ++ [readVal r])
        with ⟨tr3, c3, r3, acc3, out3⟩
      rw [hrec] at hacc hout
      dsimp only at hacc hout
      rw [sweepPoints, if_neg hc, hcomp]
      dsimp only
      rw [if_pos (hread r), hrec]
      dsimp only
      rw [List.length_cons, stopCount, if_neg hc]
      refine ⟨?_, hout⟩
      rw [hacc, List.append_assoc]
      congr 1
      rw [List.range_succ_eq_map, List.map_cons, List.map_map, List.singleton_append,
        Nat.add_zero]
      congr 1
      exact List.map_congr_left (fun j _ => congrArg readVal (by omega))

lemma run_loops1_spec (o : Oracles) (taus_us : List Rat)
    (tref_ms init_us second_us read_us : Rat)
    (h1 : o.pbInitOk = true) (h2 : o.srInitOk = true)
    (hread : ∀ n, o.readOk n = true)
    (hok : ∀ tau ∈ taus_us,
      init_us * 1000 ≤ tref_ms * 1000000 / 2 ∧
      second_us * 1000 + tau * 1000 + read_us * 1000 ≤ tref_ms * 1000000 / 2) :
    ∃ tr, run o taus_us tref_ms init_us second_us read_us 1 =
      (tr, Except.ok ⟨taus_us.map (fun x => x / 1000000),
        (List.range (stopCount o.cancelReq 0 taus_us.length)).map o.readVal⟩) := by
  obtain ⟨hacc, hout⟩ :=
    sweepPoints_spec o.cancelReq o.readOk o.readVal (settleWait o.tau_LI)
      tref_ms init_us second_us read_us hread taus_us hok 0 0 []
  rcases hsp : sweepPoints o.cancelReq o.readOk o.readVal (settleWait o.tau_LI)
      tref_ms init_us second_us read_us taus_us 0 0 [] with ⟨tr, c1, r1, acc1, out1⟩
  rw [hsp] at hacc hout
  dsimp only at hacc hout
  subst hout
  exact ⟨_, by
    rw [run, if_pos h1, if_pos h2]
    simp only [sweepLoops, hsp]
    rw [hacc]
    simp only [Nat.zero_add, List.nil_append]
    rfl⟩

/-- C1 counterexample: the claim "if initWidth + secondWidth + τ + readWidth ≤
halfPeriod then compile succeeds and each half of the emitted program sums
exactly to the half-period" is false as stated.  With `tref_ms = 1/500`
(half-period 1000 ns), `init = 0.2 ns`, `second = 500 ns`, `τ = 0.1 ns`,
`read = 499.5 ns` the fit hypothesis holds (999.8 ≤ 1000), compile succeeds,
but the final `BRANCH` filler is clamped to `max(1, 0.4) = 1 ns`, so the
second half sums to 1000.6 ns ≠ 1000 ns. -/
theorem halves_sum_cex :
    ((1 / 5000 : Rat) * 1000 + (1 / 2) * 1000 + (1 / 10000) * 1000 +
        (4995 / 10000) * 1000 ≤ (1 / 500) * 1000000 / 2) ∧
    (programThreePulseSequence (1 / 10000) (1 / 500) (1 / 5000) (1 / 2)
        (4995 / 10000)).2 =
      Except.ok
        [⟨CH_REF ||| CH_LASER, PBOp.CONTINUE, 0, 1 / 5⟩,
         ⟨CH_REF, PBOp.CONTINUE, 0, 4999 / 5⟩,
         ⟨CH_LASER, PBOp.CONTINUE, 0, 500⟩,
         ⟨0, PBOp.CONTINUE, 0, 1 / 10⟩,
         ⟨CH_LASER, PBOp.CONTINUE, 0, 999 / 2⟩,
         ⟨0, PBOp.BRANCH, 0, 1⟩] ∧
    durSum (([⟨CH_REF ||| CH_LASER, PBOp.CONTINUE, 0, 1 / 5⟩,
              ⟨CH_REF, PBOp.CONTINUE, 0, 4999 / 5⟩,
              ⟨CH_LASER, PBOp.CONTINUE, 0, 500⟩,
              ⟨0, PBOp.CONTINUE, 0, 1 / 10⟩,
              ⟨CH_LASER, PBOp.CONTINUE, 0, 999 / 2⟩,
              ⟨0, PBOp.BRANCH, 0, 1⟩] : List PulseStep).drop 2) ≠
      (1 / 500 : Rat) * 1000000 / 2 := by
  refine ⟨by norm_num, ?_, by norm_num [durSum]⟩
  norm_num [programThreePulseSequence, max_def]

/-- C1 (amended): if every width is nonnegative,
`initWidth + secondWidth + τ + readWidth ≤ halfPeriod`, and additionally the
second-half filler `halfPeriod − (secondWidth + τ + readWidth)` is at least
the 1 ns minimum instruction width, then compile succeeds and the durations
of the first two steps (first half) and of the remaining steps (second half)
each sum exactly to the half-period, so the program's total duration equals
the requested reference period. -/
theorem halves_sum_exact (tau_us tref_ms init_us second_us read_us : Rat)
    (htau : 0 ≤ tau_us) (hsec : 0 ≤ second_us) (hrd : 0 ≤ read_us)
    (hfit : init_us * 1000 + second_us * 1000 + tau_us * 1000 + read_us * 1000 ≤
      tref_ms * 1000000 / 2)
    (hfill : second_us * 1000 + tau_us * 1000 + read_us * 1000 + 1 ≤
      tref_ms * 1000000 / 2) :
    (programThreePulseSequence tau_us tref_ms init_us second_us read_us).2 =
      Except.ok (threePulseSteps tau_us tref_ms init_us second_us read_us) ∧
    durSum ((threePulseSteps tau_us tref_ms init_us second_us read_us).take 2) =
      tref_ms * 1000000 / 2 ∧
    durSum ((threePulseSteps tau_us tref_ms init_us second_us read_us).drop 2) =
      tref_ms * 1000000 / 2 ∧
    durSum (threePulseSteps tau_us tref_ms init_us second_us read_us) =
      tref_ms * 1000000 := by
  have hs0 : (0 : Rat) ≤ second_us * 1000 := mul_nonneg hsec (by norm_num)
  have ht0 : (0 : Rat) ≤ tau_us * 1000 := mul_nonneg htau (by norm_num)
  have hr0 : (0 : Rat) ≤ read_us * 1000 := mul_nonneg hrd (by norm_num)
  have h1 : init_us * 1000 ≤ tref_ms * 1000000 / 2 := by linarith
  have h2 : second_us * 1000 + tau_us * 1000 + read_us * 1000 ≤
      tref_ms * 1000000 / 2 := by linarith
  have hmax : max (1 : Rat) (tref_ms * 1000000 / 2 -
      (second_us * 1000 + tau_us * 1000 + read_us * 1000)) =
      tref_ms * 1000000 / 2 - (second_us * 1000 + tau_us * 1000 + read_us * 1000) :=
    max_eq_right (by linarith)
  refine ⟨by rw [compile_ok_of_fits _ _ _ _ _ h1 h2], ?_, ?_, ?_⟩ <;>
    by_cases ht : tau_us * 1000 > 0 <;>
      simp [threePulseSteps, ht, durSum, hmax] <;>
      (first
        | ring1
        | linarith [le_antisymm (not_lt.mp ht) ht0])

/-- C1 witness: the spec's own end-to-end example (`tref = 20 ms`,
`init = second = read = 20 µs`, `τ = 10 µs`). -/
theorem halves_sum_exact_witness :
    (programThreePulseSequence 10 20 20 20 20).2 =
      Except.ok (threePulseSteps 10 20 20 20 20) ∧
    durSum ((threePulseSteps 10 20 20 20 20).take 2) = 20 * 1000000 / 2 ∧
    durSum ((threePulseSteps 10 20 20 20 20).drop 2) = 20 * 1000000 / 2 ∧
    durSum (threePulseSteps 10 20 20 20 20) = 20 * 1000000 :=
  halves_sum_exact 10 20 20 20 20 (by norm_num) (by norm_num) (by norm_num)
    (by norm_num) (by norm_num)

/-- C5 counterexample: the claim "if the computed filler would fall below the
minimum instruction width, compile fails" is false.  With half-period
1000 ns, `init = 100 ns`, `second = 500 ns`, `τ = 0`, `read = 499.9 ns`, the
computed filler is 0.1 ns < 1 ns, yet compile succeeds and silently emits the
filler rounded up to 1 ns. -/
theorem filler_clamp_cex :
    ((1 / 500 : Rat) * 1000000 / 2 -
        ((1 / 2) * 1000 + 0 * 1000 + (4999 / 10000) * 1000) < 1) ∧
    (programThreePulseSequence 0 (1 / 500) (1 / 10) (1 / 2) (4999 / 10000)).2 =
      Except.ok
        [⟨CH_REF ||| CH_LASER, PBOp.CONTINUE, 0, 100⟩,
         ⟨CH_REF, PBOp.CONTINUE, 0, 900⟩,
         ⟨CH_LASER, PBOp.CONTINUE, 0, 500⟩,
         ⟨CH_LASER, PBOp.CONTINUE, 0, 4999 / 10⟩,
         ⟨0, PBOp.BRANCH, 0, 1⟩] := by
  refine ⟨by norm_num, ?_⟩
  norm_num [programThreePulseSequence, max_def]

/-- C5 (amended): whenever compile succeeds, the emitted program ends with
the filler step, whose duration is `max 1 (halfPeriod − (second + τ + read))`:
it is bounded below by the 1 ns minimum instruction width and never
zero-length — but when the computed filler falls below 1 ns, compile silently
rounds it up to 1 ns instead of failing. -/
theorem filler_min_width (tau_us tref_ms init_us second_us read_us : Rat)
    (hinit : init_us * 1000 ≤ tref_ms * 1000000 / 2)
    (hfit : second_us * 1000 + tau_us * 1000 + read_us * 1000 ≤
      tref_ms * 1000000 / 2) :
    (programThreePulseSequence tau_us tref_ms init_us second_us read_us).2 =
      Except.ok (threePulseSteps tau_us tref_ms init_us second_us read_us) ∧
    (∃ front, threePulseSteps tau_us tref_ms init_us second_us read_us =
      front ++ [⟨0, PBOp.BRANCH, 0,
        max 1 (tref_ms * 1000000 / 2 -
          (second_us * 1000 + tau_us * 1000 + read_us * 1000))⟩]) ∧
    (1 : Rat) ≤ max 1 (tref_ms * 1000000 / 2 -
      (second_us * 1000 + tau_us * 1000 + read_us * 1000)) ∧
    max (1 : Rat) (tref_ms * 1000000 / 2 -
      (second_us * 1000 + tau_us * 1000 + read_us * 1000)) ≠ 0 := by
  refine ⟨by rw [compile_ok_of_fits _ _ _ _ _ hinit hfit], ?_, le_max_left 1 _,
    ne_of_gt (lt_of_lt_of_le zero_lt_one (le_max_left 1 _))⟩
  refine ⟨[⟨CH_REF ||| CH_LASER, PBOp.CONTINUE, 0, init_us * 1000⟩,
    ⟨CH_REF, PBOp.CONTINUE, 0, tref_ms * 1000000 / 2 - init_us * 1000⟩,
    ⟨CH_LASER, PBOp.CONTINUE, 0, second_us * 1000⟩] ++
    (if tau_us * 1000 > 0 then [⟨0, PBOp.CONTINUE, 0, tau_us * 1000⟩] else []) ++
    [⟨CH_LASER, PBOp.CONTINUE, 0, read_us * 1000⟩], ?_⟩
  simp [threePulseSteps, List.append_assoc]

/-- C5 witness: instantiation at the spec's end-to-end example. -/
theorem filler_min_width_witness :
    (programThreePulseSequence 10 20 20 20 20).2 =
      Except.ok (threePulseSteps 10 20 20 20 20) ∧
    (∃ front, threePulseSteps 10 20 20 20 20 =
      front ++ [⟨0, PBOp.BRANCH, 0,
        max 1 (20 * 1000000 / 2 - (20 * 1000 + 10 * 1000 + 20 * 1000))⟩]) ∧
    (1 : Rat) ≤ max 1 (20 * 1000000 / 2 - (20 * 1000 + 10 * 1000 + 20 * 1000)) ∧
    max (1 : Rat) (20 * 1000000 / 2 - (20 * 1000 + 10 * 1000 + 20 * 1000)) ≠ 0 :=
  filler_min_width 10 20 20 20 20 (by norm_num) (by norm_num)

/-- C6: when the variable delay τ is 0, compile emits no step for it at all —
the program is exactly the five steps init, reference baseline, second pulse,
read pulse, filler (no zero-length τ step, no clamping) — while any τ > 0
that fits produces the six-step program. -/
theorem tau_zero_omitted (tref_ms init_us second_us read_us : Rat)
    (hinit : init_us * 1000 ≤ tref_ms * 1000000 / 2)
    (hfit : second_us * 1000 + 0 * 1000 + read_us * 1000 ≤ tref_ms * 1000000 / 2) :
    (programThreePulseSequence 0 tref_ms init_us second_us read_us).2 =
      Except.ok
        [⟨CH_REF ||| CH_LASER, PBOp.CONTINUE, 0, init_us * 1000⟩,
         ⟨CH_REF, PBOp.CONTINUE, 0, tref_ms * 1000000 / 2 - init_us * 1000⟩,
         ⟨CH_LASER, PBOp.CONTINUE, 0, second_us * 1000⟩,
         ⟨CH_LASER, PBOp.CONTINUE, 0, read_us * 1000⟩,
         ⟨0, PBOp.BRANCH, 0, max 1 (tref_ms * 1000000 / 2 -
            (second_us * 1000 + 0 * 1000 + read_us * 1000))⟩] ∧
    (∀ tau_us : Rat, 0 < tau_us →
      second_us * 1000 + tau_us * 1000 + read_us * 1000 ≤ tref_ms * 1000000 / 2 →
      ∃ steps, (programThreePulseSequence tau_us tref_ms init_us second_us read_us).2 =
          Except.ok steps ∧ steps.length = 6) := by
  constructor
  · rw [compile_ok_of_fits 0 tref_ms init_us second_us read_us hinit hfit]
    norm_num [threePulseSteps]
  · intro tau_us ht hfit2
    refine ⟨threePulseSteps tau_us tref_ms init_us second_us read_us,
      by rw [compile_ok_of_fits _ _ _ _ _ hinit hfit2], ?_⟩
    have htn : tau_us * 1000 > 0 := mul_pos ht (by norm_num)
    simp [threePulseSteps, htn]

/-- C6 witness: instantiation at `tref = 20 ms`, all widths 20 µs. -/
theorem tau_zero_omitted_witness :
    (programThreePulseSequence 0 20 20 20 20).2 =
      Except.ok
        [⟨CH_REF ||| CH_LASER, PBOp.CONTINUE, 0, 20 * 1000⟩,
         ⟨CH_REF, PBOp.CONTINUE, 0, 20 * 1000000 / 2 - 20 * 1000⟩,
         ⟨CH_LASER, PBOp.CONTINUE, 0, 20 * 1000⟩,
         ⟨CH_LASER, PBOp.CONTINUE, 0, 20 * 1000⟩,
         ⟨0, PBOp.BRANCH, 0, max 1 (20 * 1000000 / 2 -
            (20 * 1000 + 0 * 1000 + 20 * 1000))⟩] ∧
    (∀ tau_us : Rat, 0 < tau_us →
      20 * 1000 + tau_us * 1000 + 20 * 1000 ≤ 20 * 1000000 / 2 →
      ∃ steps, (programThreePulseSequence tau_us 20 20 20 20).2 =
          Except.ok steps ∧ steps.length = 6) :=
  tau_zero_omitted 20 20 20 20 (by norm_num) (by norm_num)

/-- C7 counterexample: compile is not hardware-free — on a valid spec its
trace of hardware calls is nonempty: it programs the sequencer via
`pb_start_programming` and `pb_stop_programming` (with `pb_inst_pbonly` calls
in between). -/
theorem compile_hardware_cex :
    (programThreePulseSequence 10 20 20 20 20).1 ≠ [] ∧
    Ev.pbStartProg ∈ (programThreePulseSequence 10 20 20 20 20).1 ∧
    Ev.pbStopProg ∈ (programThreePulseSequence 10 20 20 20 20).1 := by
  have h := compile_ok_of_fits 10 20 20 20 20 (by norm_num) (by norm_num)
  refine ⟨?_, ?_, ?_⟩ <;> rw [h] <;> simp

/-- C7 (amended): every hardware call compile makes is a sequencer-programming
call (`pb_start_programming` / `pb_inst_pbonly` / `pb_stop_programming`) — it
never starts, stops or resets the sequencer and never touches the instrument —
and when it rejects a spec it makes no hardware call at all. -/
theorem compile_only_programming (tau_us tref_ms init_us second_us read_us : Rat) :
    (∀ e ∈ (programThreePulseSequence tau_us tref_ms init_us second_us read_us).1,
      isProgEv e = true) ∧
    (∀ msg, (programThreePulseSequence tau_us tref_ms init_us second_us read_us).2 =
        Except.error msg →
      (programThreePulseSequence tau_us tref_ms init_us second_us read_us).1 = []) := by
  refine ⟨compile_trace_progEv tau_us tref_ms init_us second_us read_us, ?_⟩
  intro msg hmsg
  simp only [programThreePulseSequence] at hmsg ⊢
  split_ifs at hmsg ⊢ <;> simp_all

/-- C7 witness: the theorem applied to a concrete trace element of a concrete
compile call. -/
theorem compile_only_programming_witness : isProgEv Ev.pbStartProg = true :=
  (compile_only_programming 10 20 20 20 20).1 Ev.pbStartProg
    (by rw [compile_ok_of_fits 10 20 20 20 20 (by norm_num) (by norm_num)]; simp)

/-- C10: when `initWidth` equals the half-period exactly, the strict guard
`init_ns > half_ns` does not fire: compile accepts the spec and emits the
first-half reference-baseline step (index 1, channel `CH_REF`) with duration
0 — a zero-length instruction with no minimum-width check. -/
theorem init_equals_half_zero_base (tau_us tref_ms init_us second_us read_us : Rat)
    (hhalf : init_us * 1000 = tref_ms * 1000000 / 2)
    (hfit : second_us * 1000 + tau_us * 1000 + read_us * 1000 ≤
      tref_ms * 1000000 / 2) :
    (programThreePulseSequence tau_us tref_ms init_us second_us read_us).2 =
      Except.ok (threePulseSteps tau_us tref_ms init_us second_us read_us) ∧
    (threePulseSteps tau_us tref_ms init_us second_us read_us)[1]? =
      some ⟨CH_REF, PBOp.CONTINUE, 0, 0⟩ := by
  have hbase : tref_ms * 1000000 / 2 - init_us * 1000 = 0 := by rw [← hhalf]; ring
  refine ⟨by rw [compile_ok_of_fits _ _ _ _ _ (le_of_eq hhalf) hfit], ?_⟩
  simp [threePulseSteps, hbase]

/-- C10 witness: `tref = 20 ms`, `init = 10000 µs` (exactly the 10 ms
half-period). -/
theorem init_equals_half_zero_base_witness :
    (programThreePulseSequence 10 20 10000 20 20).2 =
      Except.ok (threePulseSteps 10 20 10000 20 20) ∧
    (threePulseSteps 10 20 10000 20 20)[1]? = some ⟨CH_REF, PBOp.CONTINUE, 0, 0⟩ :=
  init_equals_half_zero_base 10 20 10000 20 20 (by norm_num) (by norm_num)

/-- Environment that requests interruption from the second check on (i.e.
right after sweep point 0 completes). -/
def cancelOracleA : Oracles :=
  ⟨true, true, 1 / 100, fun c => decide (1 ≤ c), fun _ => true, fun n => (n : Rat),
   true, true, true⟩

/-- Environment that requests interruption from the third check on (i.e.
right after sweep point 1 completes). -/
def cancelOracleB : Oracles :=
  ⟨true, true, 1 / 100, fun c => decide (2 ≤ c), fun _ => true, fun n => (n : Rat),
   true, true, true⟩

/-- Environment whose SR830 initialization raises (Priming failure). -/
def primingFailOracle : Oracles :=
  ⟨true, false, 1 / 100, fun _ => false, fun _ => true, fun _ => 0, true, true, true⟩

lemma run_snd_eq_of_same_core (o o' : Oracles) (taus_us : List Rat)
    (tref_ms init_us second_us read_us : Rat) (loops : Nat)
    (hpb : o'.pbInitOk = o.pbInitOk) (hsr : o'.srInitOk = o.srInitOk)
    (htc : o'.tau_LI = o.tau_LI) (hcan : o'.cancelReq = o.cancelReq)
    (hro : o'.readOk = o.readOk) (hrv : o'.readVal = o.readVal) :
    (run o' taus_us tref_ms init_us second_us read_us loops).2 =
      (run o taus_us tref_ms init_us second_us read_us loops).2 := by
  rw [run, run, hpb, hsr, htc, hcan, hro, hrv]
  split_ifs with h1 h2
  · rcases hsl : sweepLoops o.cancelReq o.readOk o.readVal (settleWait o.tau_LI)
        tref_ms init_us second_us read_us taus_us loops 0 0 [] with ⟨tr, acc, out⟩
    cases out <;> rfl
  · rfl
  · rfl

/-- C2 counterexample: for a τ that violates the second-half budget
(`τ = 10000 µs` with a 10000 µs half-period and 20 µs second/read pulses)
compile does fail, but the Controller has already called the Sequencer Port
for that point: `pb_stop` and `pb_reset` (trace positions 2 and 3) precede
the compile failure, so "aborts before ever calling the Sequencer Port" is
false. -/
theorem timing_violation_port_cex :
    (run okOracle [10000] 20 20 20 20 1).2 =
      Except.error "SECOND + tau + READ must fit in second half" ∧
    (run okOracle [10000] 20 20 20 20 1).1 =
      [Ev.pbInitSimple, Ev.sr830Init, Ev.pbStop, Ev.pbReset,
       Ev.pbStop, Ev.pbReset, Ev.pbClose, Ev.liClose, Ev.rmClose] ∧
    Ev.pbStop ∈ (run okOracle [10000] 20 20 20 20 1).1.take 4 := by
  refine ⟨?_, ?_, ?_⟩ <;>
    norm_num [run, okOracle, settleWait, sweepLoops, sweepPoints, finalizeTrace,
      programThreePulseSequence]

/-- C2 (amended): when `secondWidth + τ + readWidth` exceeds the half-period
(and `initWidth` fits, so the second guard is the one that fires), the run
aborts with the timing `ValueError`, and for that sweep point no program is
ever loaded and the sequencer is never started — the whole trace contains no
programming call and no `pb_start` — although the Controller does call
`pb_stop` and `pb_reset` on the Sequencer Port before compiling. -/
theorem timing_violation_no_load (o : Oracles)
    (tau_us tref_ms init_us second_us read_us : Rat)
    (h1 : o.pbInitOk = true) (h2 : o.srInitOk = true) (hc : o.cancelReq 0 = false)
    (hinit : init_us * 1000 ≤ tref_ms * 1000000 / 2)
    (hviol : tref_ms * 1000000 / 2 <
      second_us * 1000 + tau_us * 1000 + read_us * 1000) :
    (run o [tau_us] tref_ms init_us second_us read_us 1).2 =
      Except.error "SECOND + tau + READ must fit in second half" ∧
    (run o [tau_us] tref_ms init_us second_us read_us 1).1 =
      Ev.pbInitSimple :: Ev.sr830Init :: Ev.pbStop :: Ev.pbReset ::
        finalizeTrace o.finPbStopOk o.finPbResetOk o.finLiCloseOk ∧
    (∀ e ∈ (run o [tau_us] tref_ms init_us second_us read_us 1).1,
      isProgEv e = false ∧ e ≠ Ev.pbStart) := by
  have hcomp :=
    compile_error_of_violation tau_us tref_ms init_us second_us read_us hinit hviol
  have hcb : ¬ o.cancelReq 0 = true := by rw [hc]; simp
  have hsp : sweepPoints o.cancelReq o.readOk o.readVal (settleWait o.tau_LI)
      tref_ms init_us second_us read_us [tau_us] 0 0 [] =
      ([Ev.pbStop, Ev.pbReset] ++ [], 0 + 1, 0, [],
       some "SECOND + tau + READ must fit in second half") := by
    rw [sweepPoints, if_neg hcb, hcomp]
  have hrun : run o [tau_us] tref_ms init_us second_us read_us 1 =
      (Ev.pbInitSimple :: Ev.sr830Init :: Ev.pbStop :: Ev.pbReset ::
         finalizeTrace o.finPbStopOk o.finPbResetOk o.finLiCloseOk,
       Except.error "SECOND + tau + READ must fit in second half") := by
    rw [run, if_pos h1, if_pos h2]
    simp only [sweepLoops, hsp]
    simp
  refine ⟨by rw [hrun], by rw [hrun], ?_⟩
  rw [hrun]
  intro e he
  rcases List.mem_cons.mp he with rfl | he
  · exact ⟨rfl, by simp⟩
  rcases List.mem_cons.mp he with rfl | he
  · exact ⟨rfl, by simp⟩
  rcases List.mem_cons.mp he with rfl | he
  · exact ⟨rfl, by simp⟩
  rcases List.mem_cons.mp he with rfl | he
  · exact ⟨rfl, by simp⟩
  have h3 := finalize_only_teardown o.finPbStopOk o.finPbResetOk o.finLiCloseOk e he
  exact ⟨h3.1, h3.2.1⟩

/-- C2 witness: the spec's end-to-end failure example (`τ = 10000 µs` against
a 10000 µs half-period). -/
theorem timing_violation_no_load_witness :
    (run okOracle [10000] 20 20 20 20 1).2 =
      Except.error "SECOND + tau + READ must fit in second half" ∧
    (run okOracle [10000] 20 20 20 20 1).1 =
      Ev.pbInitSimple :: Ev.sr830Init :: Ev.pbStop :: Ev.pbReset ::
        finalizeTrace okOracle.finPbStopOk okOracle.finPbResetOk
          okOracle.finLiCloseOk ∧
    (∀ e ∈ (run okOracle [10000] 20 20 20 20 1).1,
      isProgEv e = false ∧ e ≠ Ev.pbStart) :=
  timing_violation_no_load okOracle 10000 20 20 20 20 rfl rfl rfl (by norm_num)
    (by norm_num)

/-- C3 counterexample: with settleFactor 10 and an instrument time constant of
10 ms the settle wait is `max(1, 10 × 0.01) = 1 s`, not the claimed 100 ms —
the 1 s floor dominates. -/
theorem settle_example_cex :
    settleWait (1 / 100) = 1 ∧ ((1 : Rat) ≠ 1 / 10) := by
  norm_num [settleWait, max_def]

/-- C3 (amended): every settle sleep performed by `run` has duration
`settleWait tc = max(1, 10 × tc)` seconds, where `tc` is the time constant
the instrument reported at connect; the wait is always at least the 1 s
floor (so with settleFactor 10 and a 10 ms time constant it is 1 s, not
100 ms), and a reported time constant of 0 yields exactly the floor. -/
theorem settle_wait_floor (o : Oracles) (taus_us : List Rat)
    (tref_ms init_us second_us read_us : Rat) (loops : Nat) (t : Rat)
    (h : Ev.sleep t ∈ (run o taus_us tref_ms init_us second_us read_us loops).1) :
    t = settleWait o.tau_LI ∧ t = max 1 (10 * o.tau_LI) ∧ (1 : Rat) ≤ t ∧
    settleWait 0 = 1 := by
  have hw : settleWait 0 = 1 := by norm_num [settleWait, max_def]
  have ht : t = settleWait o.tau_LI := by
    rw [run] at h
    by_cases h1 : o.pbInitOk = true
    · rw [if_pos h1] at h
      by_cases h2 : o.srInitOk = true
      · rw [if_pos h2] at h
        rcases hsl : sweepLoops o.cancelReq o.readOk o.readVal (settleWait o.tau_LI)
            tref_ms init_us second_us read_us taus_us loops 0 0 []
          with ⟨tr, acc, out⟩
        rw [hsl] at h
        have hmem : Ev.sleep t ∈
            Ev.pbInitSimple :: Ev.sr830Init ::
              (tr ++ finalizeTrace o.finPbStopOk o.finPbResetOk o.finLiCloseOk) := by
          cases out with
          | some e => exact h
          | none => exact h
        rcases List.mem_cons.mp hmem with hx | hmem
        · exact absurd hx (by simp)
        rcases List.mem_cons.mp hmem with hx | hmem
        · exact absurd hx (by simp)
        rcases List.mem_append.mp hmem with hx | hx
        · exact sweepLoops_sleep_eq o.cancelReq o.readOk o.readVal
            (settleWait o.tau_LI) tref_ms init_us second_us read_us taus_us loops
            0 0 [] t (by rw [hsl]; exact hx)
        · exact absurd rfl
            ((finalize_only_teardown o.finPbStopOk o.finPbResetOk o.finLiCloseOk
              (Ev.sleep t) hx).2.2 t)
      · rw [if_neg h2] at h
        simp at h
    · rw [if_neg h1] at h
      simp at h
  exact ⟨ht, by rw [ht]; rfl, by rw [ht]; exact le_max_left 1 _, hw⟩

/-- C3 witness: in a concrete fault-free run with a 10 ms time constant, the
settle sleep recorded in the trace is 1 s. -/
theorem settle_wait_floor_witness :
    (1 : Rat) = settleWait okOracle.tau_LI ∧
    (1 : Rat) = max 1 (10 * okOracle.tau_LI) ∧ (1 : Rat) ≤ 1 ∧ settleWait 0 = 1 :=
  settle_wait_floor okOracle [10] 20 20 20 20 1 1 (by
    norm_num [run, okOracle, settleWait, sweepLoops, sweepPoints, finalizeTrace,
      programThreePulseSequence, max_def])

/-- C4 counterexample: with cancellation requested right after point 0 of a
3-point sweep, `run` returns a plain success value of exactly the same shape
as a completed run — there is no Cancelled-vs-Completed status anywhere in
the result — and the returned pair is NOT truncated at the last completed
point: the parameter list keeps all 3 τ values while only 1 measurement was
recorded. -/
theorem cancel_result_cex :
    (run cancelOracleA [10, 20, 30] 20 20 20 20 1).2 =
      Except.ok ⟨[1 / 100000, 1 / 50000, 3 / 100000], [0]⟩ ∧
    ([(1 : Rat) / 100000, 1 / 50000, 3 / 100000].length = 3 ∧
      ([(0 : Rat)] : List Rat).length = 1) := by
  refine ⟨?_, by simp, by simp⟩
  norm_num [run, cancelOracleA, settleWait, sweepLoops, sweepPoints, finalizeTrace,
    programThreePulseSequence, max_def]

/-- C4 (amended): if cancellation is first requested at the interruption check
after point k (0 ≤ k < N, every point fitting the budget, every read
succeeding), `run` returns normally (no distinct Cancelled status exists in
the result) with exactly k+1 recorded measurements — the k+1-th read, already
completed, is kept — never more than N, in acquisition order; the measurement
list is truncated at the last completed point but the returned parameter list
always keeps all N values. -/
theorem cancel_truncates_reads (o : Oracles) (taus_us : List Rat)
    (tref_ms init_us second_us read_us : Rat) (k : Nat)
    (h1 : o.pbInitOk = true) (h2 : o.srInitOk = true)
    (hread : ∀ n, o.readOk n = true)
    (hcan : ∀ n, o.cancelReq n = decide (k + 1 ≤ n))
    (hok : ∀ tau ∈ taus_us,
      init_us * 1000 ≤ tref_ms * 1000000 / 2 ∧
      second_us * 1000 + tau * 1000 + read_us * 1000 ≤ tref_ms * 1000000 / 2)
    (hk : k < taus_us.length) :
    ∃ tr, run o taus_us tref_ms init_us second_us read_us 1 =
        (tr, Except.ok ⟨taus_us.map (fun x => x / 1000000),
          (List.range (k + 1)).map o.readVal⟩) ∧
      ((List.range (k + 1)).map o.readVal).length = k + 1 ∧
      k + 1 ≤ taus_us.length ∧
      (taus_us.map (fun x => x / 1000000)).length = taus_us.length := by
  obtain ⟨tr, hr⟩ :=
    run_loops1_spec o taus_us tref_ms init_us second_us read_us h1 h2 hread hok
  rw [stopCount_threshold (k + 1) o.cancelReq hcan taus_us.length 0] at hr
  have hmin : min (k + 1 - 0) taus_us.length = k + 1 := by omega
  rw [hmin] at hr
  exact ⟨tr, hr, by simp, by omega, by simp⟩

/-- C4 witness: cancellation requested after point 1 of a 3-point sweep keeps
exactly 2 measurements. -/
theorem cancel_truncates_reads_witness :
    ∃ tr, run cancelOracleB [10, 20, 30] 20 20 20 20 1 =
        (tr, Except.ok ⟨([10, 20, 30] : List Rat).map (fun x => x / 1000000),
          (List.range (1 + 1)).map cancelOracleB.readVal⟩) ∧
      ((List.range (1 + 1)).map cancelOracleB.readVal).length = 1 + 1 ∧
      1 + 1 ≤ ([10, 20, 30] : List Rat).length ∧
      (([10, 20, 30] : List Rat).map (fun x => x / 1000000)).length =
        ([10, 20, 30] : List Rat).length :=
  cancel_truncates_reads cancelOracleB [10, 20, 30] 20 20 20 20 1 rfl rfl
    (fun _ => rfl) (fun _ => rfl)
    (by intro tau htau; fin_cases htau <;> constructor <;> norm_num)
    (by norm_num)

/-- C8: with both inits succeeding, no interruption ever requested, every
point fitting the timing budget and every read succeeding, `run` returns the
full τ list (converted µs → s, same values in the same order, no reordering
and no deduplication) together with exactly N measurements — the reads in
acquisition order, which is the parameter order. -/
theorem run_complete_all_points (o : Oracles) (taus_us : List Rat)
    (tref_ms init_us second_us read_us : Rat)
    (h1 : o.pbInitOk = true) (h2 : o.srInitOk = true)
    (hnc : ∀ n, o.cancelReq n = false) (hread : ∀ n, o.readOk n = true)
    (hok : ∀ tau ∈ taus_us,
      init_us * 1000 ≤ tref_ms * 1000000 / 2 ∧
      second_us * 1000 + tau * 1000 + read_us * 1000 ≤ tref_ms * 1000000 / 2) :
    ∃ tr, run o taus_us tref_ms init_us second_us read_us 1 =
        (tr, Except.ok ⟨taus_us.map (fun x => x / 1000000),
          (List.range taus_us.length).map o.readVal⟩) ∧
      ((List.range taus_us.length).map o.readVal).length = taus_us.length ∧
      (taus_us.map (fun x => x / 1000000)).length = taus_us.length := by
  obtain ⟨tr, hr⟩ :=
    run_loops1_spec o taus_us tref_ms init_us second_us read_us h1 h2 hread hok
  rw [stopCount_of_false o.cancelReq hnc taus_us.length 0] at hr
  exact ⟨tr, hr, by simp, by simp⟩

/-- C8 witness: a fault-free 3-point sweep records exactly 3 readings. -/
theorem run_complete_all_points_witness :
    ∃ tr, run okOracle [10, 20, 30] 20 20 20 20 1 =
        (tr, Except.ok ⟨([10, 20, 30] : List Rat).map (fun x => x / 1000000),
          (List.range ([10, 20, 30] : List Rat).length).map okOracle.readVal⟩) ∧
      ((List.range ([10, 20, 30] : List Rat).length).map okOracle.readVal).length =
        ([10, 20, 30] : List Rat).length ∧
      (([10, 20, 30] : List Rat).map (fun x => x / 1000000)).length =
        ([10, 20, 30] : List Rat).length :=
  run_complete_all_points okOracle [10, 20, 30] 20 20 20 20 rfl rfl
    (fun _ => rfl) (fun _ => rfl)
    (by intro tau htau; fin_cases htau <;> constructor <;> norm_num)

/-- C9 counterexample: a Priming failure (`init_sr830` raising) happens before
the `try`, so the error is surfaced with no finalization at all — the trace is
just the two init attempts: the PulseBlaster is never stopped, reset or
closed and the instrument connection is never closed. -/
theorem priming_failure_no_finalize_cex :
    (run primingFailOracle [10] 20 20 20 20 1).2 =
      Except.error "sr830 init failed" ∧
    (run primingFailOracle [10] 20 20 20 20 1).1 =
      [Ev.pbInitSimple, Ev.sr830Init] ∧
    Ev.pbClose ∉ (run primingFailOracle [10] 20 20 20 20 1).1 ∧
    Ev.liClose ∉ (run primingFailOracle [10] 20 20 20 20 1).1 := by
  refine ⟨?_, ?_, ?_, ?_⟩ <;> simp [run, primingFailOracle]

/-- C9 (amended): once Priming has succeeded, the `finally` block runs on
every exit path — normal completion, cancellation, compile failure, read
failure — so the trace always ends with the finalization calls (which always
attempt `pb_stop` and `li.close`), before any error is surfaced; and a
failure inside the `finally` block is swallowed: the run's outcome does not
depend on whether the finalization calls succeed.  (On a Priming failure,
however, no finalization runs at all.) -/
theorem run_finalizes (o : Oracles) (taus_us : List Rat)
    (tref_ms init_us second_us read_us : Rat) (loops : Nat) (b1 b2 b3 : Bool)
    (h1 : o.pbInitOk = true) (h2 : o.srInitOk = true) :
    (∃ pre, (run o taus_us tref_ms init_us second_us read_us loops).1 =
      pre ++ finalizeTrace o.finPbStopOk o.finPbResetOk o.finLiCloseOk) ∧
    Ev.pbStop ∈ finalizeTrace o.finPbStopOk o.finPbResetOk o.finLiCloseOk ∧
    Ev.liClose ∈ finalizeTrace o.finPbStopOk o.finPbResetOk o.finLiCloseOk ∧
    (run { o with finPbStopOk := b1, finPbResetOk := b2, finLiCloseOk := b3 }
        taus_us tref_ms init_us second_us read_us loops).2 =
      (run o taus_us tref_ms init_us second_us read_us loops).2 := by
  rcases hsl : sweepLoops o.cancelReq o.readOk o.readVal (settleWait o.tau_LI)
      tref_ms init_us second_us read_us taus_us loops 0 0 [] with ⟨tr, acc, out⟩
  refine ⟨⟨Ev.pbInitSimple :: Ev.sr830Init :: tr, ?_⟩,
    finalize_mem_pbStop _ _ _, finalize_mem_liClose _ _ _,
    run_snd_eq_of_same_core o _ taus_us tref_ms init_us second_us read_us loops
      rfl rfl rfl rfl rfl rfl⟩
  rw [run, if_pos h1, if_pos h2, hsl]
  cases out <;> rfl

/-- C9 witness: instantiation at a concrete fault-free run, with all three
finalization calls failing in the modified environment. -/
theorem run_finalizes_witness :
    (∃ pre, (run okOracle [10] 20 20 20 20 1).1 =
      pre ++ finalizeTrace okOracle.finPbStopOk okOracle.finPbResetOk
        okOracle.finLiCloseOk) ∧
    Ev.pbStop ∈ finalizeTrace okOracle.finPbStopOk okOracle.finPbResetOk
      okOracle.finLiCloseOk ∧
    Ev.liClose ∈ finalizeTrace okOracle.finPbStopOk okOracle.finPbResetOk
      okOracle.finLiCloseOk ∧
    (run
        { okOracle with
            finPbStopOk := false, finPbResetOk := false, finLiCloseOk := false }
        [10] 20 20 20 20 1).2 =
      (run okOracle [10] 20 20 20 20 1).2 :=
  run_finalizes okOracle [10] 20 20 20 20 1 false false false rfl rfl
